import Mathlib

/-!
Verification development for the HTML2EXE resilient build orchestration
engine.  The definitions below are a shallow embedding of
`src/html2exe/core/config.py`, `src/html2exe/core/builder.py` and
`src/html2exe/core/debugger.py`: pure functions are translated directly,
stateful Python code becomes explicit state passing, filesystem and
process observations become explicit environment records, and Python
exceptions become `Except`/`Option` values.

Modelling conventions, stated once here:
* `os.path.join` is modelled with a `/` separator (`joinPath`); the code
  branches on `sys.platform == "win32"` explicitly wherever the platform
  matters, and those branches are kept (field `platform` of the
  environment records).
* Wall-clock durations, log timestamps and artifact sizes are omitted
  from result records: no claim mentions them and they are pure
  observations of the clock.
* A Python dict returned by the engine is modelled as a record holding
  the keys the orchestrator reads (`success`, `error`, `exe_path`).
-/

/-- Single-quote character, used to build the Python string literals that
contain quotes (such as the missing-module pattern). -/
def squote : Char := Char.ofNat 39

/-- Wrap a string in single quotes, as Python f-strings with `'...'` do. -/
def quoted (s : String) : String := String.singleton squote ++ s ++ String.singleton squote

/-- `WindowConfig` of `core/config.py` (defaults as in the source). -/
structure WindowConfig where
  width : Nat := 1200
  height : Nat := 800
  min_width : Nat := 400
  min_height : Nat := 300
  resizable : Bool := true
  fullscreen : Bool := false
  kiosk : Bool := false
  frameless : Bool := false
  dpi_aware : Bool := true
  always_on_top : Bool := false
  center : Bool := true
  maximized : Bool := false
  deriving DecidableEq, Repr

/-- Default `csp_policy` string of `SecurityConfig` in `core/config.py`. -/
def defaultCspPolicy : String :=
  "default-src " ++ quoted "self" ++ " " ++ quoted "unsafe-inline" ++ " " ++ quoted "unsafe-eval" ++
  " data: blob:; img-src " ++ quoted "self" ++ " data: blob: *;"

/-- `SecurityConfig` of `core/config.py`. -/
structure SecurityConfig where
  csp_enabled : Bool := true
  csp_policy : String := defaultCspPolicy
  same_origin_only : Bool := false
  allow_devtools : Bool := true
  block_external_urls : Bool := false
  allowed_domains : List String := []
  disable_context_menu : Bool := false
  deriving DecidableEq, Repr

/-- `AppMetadata` of `core/config.py` (the `copyright` default embeds the
current year in the source; it is an arbitrary string here). -/
structure AppMetadata where
  name : String := "MyHTMLApp"
  version : String := "1.0.0"
  company : String := "My Company"
  copyright : String := "(C) My Company"
  description : String := "HTML Desktop Application"
  author : String := "Developer"
  email : String := "developer@company.com"
  website : String := "https://company.com"
  license : String := "Proprietary"
  deriving DecidableEq, Repr

/-- `BuildConfig` of `core/config.py`. -/
structure BuildConfig where
  source_type : String := "folder"
  source_path : String := ""
  output_dir : String := "dist"
  offline_mode : Bool := false
  onefile : Bool := true
  console : Bool := false
  debug : Bool := false
  upx_compress : Bool := false
  icon_path : String := ""
  splash_screen : String := ""
  custom_protocol : String := ""
  single_instance : Bool := true
  tray_menu : Bool := true
  auto_start : Bool := false
  include_ffmpeg : Bool := false
  strip_debug : Bool := true
  deriving DecidableEq, Repr

/-- `AdvancedConfig` of `core/config.py`. -/
structure AdvancedConfig where
  auto_updater : Bool := false
  update_url : String := ""
  deep_links : Bool := false
  file_associations : List String := []
  startup_sound : String := ""
  theme : String := "auto"
  deriving DecidableEq, Repr

/-- `AppConfig` of `core/config.py`: the complete configuration value. -/
structure AppConfig where
  metadata : AppMetadata := {}
  window : WindowConfig := {}
  security : SecurityConfig := {}
  build : BuildConfig := {}
  advanced : AdvancedConfig := {}
  deriving DecidableEq, Repr

/-- `os.path.join` with a POSIX separator. -/
def joinPath (a b : String) : String := a ++ "/" ++ b

/-- Python `str.strip()`: remove leading and trailing whitespace
(implemented over character lists so that it evaluates in the kernel). -/
def pyStrip (s : String) : String :=
  String.mk (((s.toList.dropWhile Char.isWhitespace).reverse.dropWhile Char.isWhitespace).reverse)

/-- Lower-case a string character-wise, modelling Python `str.lower()` on
ASCII text. -/
def lowerStr (s : String) : String := String.mk (s.toList.map Char.toLower)

/-- Characters matched by the regex class `[\w\.]` of
`diagnose_export_failure` (ASCII word characters and the dot). -/
def isWordDotChar (c : Char) : Bool := c.isAlphanum || c = '_' || c = '.'

/-- The literal part of the missing-module regex in
`ExportDebugger.diagnose_export_failure` (`debugger.py` line 59), up to
the opening quote. -/
def mnfLiteral : List Char :=
  "modulenotfounderror: no module named ".toList ++ [squote]

/-- Strip the literal `pre` from the front of `s`, if present. -/
def stripLiteral : List Char → List Char → Option (List Char)
  | [], s => some s
  | _ :: _, [] => none
  | p :: ps, c :: cs => if c = p then stripLiteral ps cs else none

/-- Longest prefix of `[\w\.]` characters together with the rest. -/
def takeWordRun : List Char → List Char × List Char
  | [] => ([], [])
  | c :: cs =>
    if isWordDotChar c then
      let (run, rest) := takeWordRun cs
      (c :: run, rest)
    else ([], c :: cs)

/-- Try the missing-module regex anchored at the head of `s`: the literal
`modulenotfounderror: no module named '`, one or more `[\w\.]`
characters, then a closing quote. -/
def matchMnfAt (s : List Char) : Option (List Char) :=
  match stripLiteral mnfLiteral s with
  | none => none
  | some rest =>
    let (run, rest') := takeWordRun rest
    if run ≠ [] ∧ rest'.head? = some squote then some run else none

/-- `re.search` semantics for the missing-module regex: first position
(leftmost) whose anchored match succeeds. -/
def searchMnf : List Char → Option (List Char)
  | [] => matchMnfAt []
  | c :: cs =>
    match matchMnfAt (c :: cs) with
    | some run => some run
    | none => searchMnf cs

/-- The `missing_module` extraction of
`ExportDebugger.diagnose_export_failure` (`debugger.py` lines 56-63):
lower-case the error message and search it for
`modulenotfounderror: no module named '([\w\.]+)'`.  The rest of the
diagnosis dict (solutions, recommendations) never influences the
orchestrator's control flow and is not modelled. -/
def diagnoseMissingModule (errorMessage : String) : Option String :=
  match searchMnf (lowerStr errorMessage).toList with
  | some run => some (String.mk run)
  | none => none

example : diagnoseMissingModule ("ModuleNotFoundError: No module named " ++ quoted "requests") =
    some "requests" := by decide

example : diagnoseMissingModule "Build failed: boom" = none := by decide

example : diagnoseMissingModule ("xx ModuleNotFoundError: No module named " ++ quoted "pkg.sub" ++ " yy") =
    some "pkg.sub" := by decide

/-- Outcome of one validation check: the `{"success": bool, "error": str}`
dicts of `debugger.py`. -/
inductive CheckResult where
  | ok
  | failed (err : String)
  deriving DecidableEq, Repr

/-- Filesystem side effects a validation check can perform (claim-relevant
observations of `os.makedirs`, `open(...,'w')`, `os.remove`). -/
inductive FsEffect where
  | makeDirs (path : String)
  | writeFile (path : String)
  | removeFile (path : String)
  deriving DecidableEq, Repr

/-- Outcome of the write-permission probe of
`BulletProofExporter._check_permissions`: the probe performs three
fallible operations in order (`os.makedirs`, write the test file, remove
it); the environment says which one, if any, raises. -/
inductive PermProbe where
  | ok
  | mkdirFails (msg : String)
  | writeFails (msg : String)
  | removeFails (msg : String)
  deriving DecidableEq, Repr

/-- Environment observed by the validation pipeline of `debugger.py`:
interpreter version, `psutil` memory probe (`none` models the
`ImportError` branch), `importlib.util.find_spec`, `shutil.disk_usage`
(`none` models the probe raising), the write-permission probe and
`os.path.exists`. -/
structure DbgEnv where
  pyVersion : Nat × Nat := (3, 11)
  availMemBytes : Option Nat := none
  findSpec : String → Bool := fun _ => true
  diskFree : String → Option Nat := fun _ => none
  permProbe : PermProbe := .ok
  fsExists : String → Bool := fun _ => false

/-- A validation check: `(environment, config) -> (result, effects)`. -/
def Check : Type := DbgEnv → AppConfig → CheckResult × List FsEffect

/-- Python tuple comparison `sys.version_info < (3, 8)` on
`(major, minor)`. -/
def verLt (a b : Nat × Nat) : Bool := a.1 < b.1 || (a.1 = b.1 && a.2 < b.2)

/-- `BulletProofExporter._check_system_requirements` (`debugger.py`
lines 214-225).  `available_memory < 0.5` GB on an integer byte count is
exactly `bytes < 536870912`. -/
def checkSystemRequirements : Check := fun env _cfg =>
  if verLt env.pyVersion (3, 8) then (.failed "Python 3.8+ required", [])
  else
    match env.availMemBytes with
    | some m =>
      if m < 536870912 then
        (.failed "Insufficient memory (need at least 500MB)", [])
      else (.ok, [])
    | none => (.ok, [])

/-- `BulletProofExporter._check_source_validity` (`debugger.py`
lines 227-236).  A missing `index.html` only logs a warning. -/
def checkSourceValidity : Check := fun env cfg =>
  if cfg.build.source_path = "" then (.failed "Source path not specified", [])
  else if cfg.build.source_type = "folder" then
    if ¬ env.fsExists cfg.build.source_path then
      (.failed ("Source folder not found: " ++ cfg.build.source_path), [])
    else (.ok, [])
  else (.ok, [])

/-- Modules required by `BulletProofExporter._check_dependencies`. -/
def requiredModules : List String := ["typer", "rich", "pydantic", "flask", "PyInstaller"]

/-- `BulletProofExporter._check_dependencies` (`debugger.py`
lines 238-244). -/
def checkDependencies : Check := fun env _cfg =>
  let missing := requiredModules.filter (fun m => ¬ env.findSpec m)
  if missing ≠ [] then
    (.failed ("Missing dependencies: " ++ String.intercalate ", " missing), [])
  else (.ok, [])

/-- `BulletProofExporter._check_disk_space` (`debugger.py` lines
246-255): a failing `shutil.disk_usage` probe is swallowed by the bare
`except: pass`, so the check passes; a successful probe under 2 GB
returns a failure (that `return` is a normal return, not an exception). -/
def checkDiskSpace : Check := fun env cfg =>
  match env.diskFree cfg.build.output_dir with
  | some free =>
    if free < 2 * 1024 * 1024 * 1024 then
      (.failed ("Insufficient disk space. Need 2GB, have " ++
        toString (free / (1024 * 1024 * 1024)) ++ "GB"), [])
    else (.ok, [])
  | none => (.ok, [])

/-- `BulletProofExporter._check_permissions` (`debugger.py` lines
257-267): creates the output directory, writes `test_write.tmp` there and
removes it; any exception yields a failure, after the effects already
performed. -/
def checkPermissions : Check := fun env cfg =>
  let outDir := cfg.build.output_dir
  let testFile := joinPath outDir "test_write.tmp"
  match env.permProbe with
  | .ok => (.ok, [.makeDirs outDir, .writeFile testFile, .removeFile testFile])
  | .mkdirFails msg =>
    (.failed ("No write permission to output directory: " ++ msg), [])
  | .writeFails msg =>
    (.failed ("No write permission to output directory: " ++ msg), [.makeDirs outDir])
  | .removeFails msg =>
    (.failed ("No write permission to output directory: " ++ msg),
      [.makeDirs outDir, .writeFile testFile])

/-- The forbidden-character string of `_check_configuration` and
`_validate_build_config`. -/
def invalidNameChars : String := "<>:\"/\\|?*"

/-- `BulletProofExporter._check_configuration` (`debugger.py` lines
269-276). -/
def checkConfiguration : Check := fun _env cfg =>
  if pyStrip cfg.metadata.name = "" then (.failed "Application name is required", [])
  else if invalidNameChars.toList.any (fun c => cfg.metadata.name.toList.contains c) then
    (.failed ("Application name contains invalid characters: " ++ invalidNameChars), [])
  else (.ok, [])

/-- The fixed ordered check list of
`BulletProofExporter._pre_export_validation` (`debugger.py` lines
192-199). -/
def validationChecks : List Check :=
  [checkSystemRequirements, checkSourceValidity, checkDependencies,
   checkDiskSpace, checkPermissions, checkConfiguration]

/-- The `for check in validation_checks` loop of
`_pre_export_validation`: run checks in order and return the FIRST
failing check's result (the source returns inside the loop), together
with the filesystem effects of the checks actually executed. -/
def runChecks : List Check → DbgEnv → AppConfig → CheckResult × List FsEffect
  | [], _, _ => (.ok, [])
  | c :: cs, env, cfg =>
    match c env cfg with
    | (.ok, eff) =>
      let (r, eff') := runChecks cs env cfg
      (r, eff ++ eff')
    | (.failed e, eff) => (.failed e, eff)

/-- `BulletProofExporter._pre_export_validation` (`debugger.py` lines
188-212). -/
def preExportValidation (env : DbgEnv) (cfg : AppConfig) : CheckResult × List FsEffect :=
  runChecks validationChecks env cfg

/-- Outcome of `urllib.request.urlopen(HEAD)` in
`BuildEngine._validate_build_config`: an HTTP status, a `URLError`, or
another exception. -/
inductive UrlProbe where
  | status (code : Nat)
  | urlError (msg : String)
  | exc (msg : String)
  deriving DecidableEq, Repr

/-- Outcome of `subprocess.run` in `BuildEngine.build`: either
`TimeoutExpired` or a normal exit with return code and captured
stdout/stderr. -/
inductive ProcOutcome where
  | timeoutExpired
  | exited (returncode : Nat) (stdout : String) (stderr : String)
  deriving DecidableEq, Repr

/-- Environment observed by one `BuildEngine` run: platform and
interpreter, pre-build filesystem probes, `os.path.abspath`, the URL
probe, `shutil.disk_usage`, the backend process outcome and the
post-process existence probe for the artifact. -/
structure BuildEnv where
  platform : String := "linux"
  pyExecutable : String := "/usr/bin/python3"
  fsExists : String → Bool := fun _ => false
  absPath : String → String := fun p => p
  urlHead : String → UrlProbe := fun _ => .status 200
  diskFree : String → Option Nat := fun _ => none
  proc : ProcOutcome := .exited 0 "" ""
  existsAfter : String → Bool := fun _ => false

/-- `self.build_dir` of `BuildEngine.__init__`. -/
def buildDirOf (cfg : AppConfig) : String := joinPath cfg.build.output_dir "build"

/-- `self.dist_dir` of `BuildEngine.__init__`. -/
def distDirOf (cfg : AppConfig) : String := joinPath cfg.build.output_dir "dist"

/-- The `try`-body of the disk-space block at the end of
`BuildEngine._validate_build_config` (`builder.py` lines 302-309):
`some msg` is the exception it would raise (either the probe itself
raising, or the explicit `Insufficient disk space` raise). -/
def diskTryBodyBuilder (free? : Option Nat) : Option String :=
  match free? with
  | none => some "disk_usage failed"
  | some free =>
    if free < 500 * 1024 * 1024 then
      some "Insufficient disk space (need at least 500MB)"
    else none

/-- The whole disk-space block of `_validate_build_config`: the bare
`except: pass` swallows every exception of the `try`-body, including the
explicit low-space raise, so the block never fails validation. -/
def diskCheckBuilder (free? : Option Nat) : Option String :=
  match diskTryBodyBuilder free? with
  | some _ => none
  | none => none

/-- `BuildEngine._validate_build_config` (`builder.py` lines 272-309);
`some msg` models `raise Exception(msg)`. -/
def validateBuildConfig (env : BuildEnv) (cfg : AppConfig) : Option String :=
  if cfg.build.source_path = "" then some "Source path is required"
  else
    let srcCheck : Option String :=
      if cfg.build.source_type = "folder" then
        if ¬ env.fsExists cfg.build.source_path then
          some ("Source folder does not exist: " ++ cfg.build.source_path)
        else none
      else if cfg.build.source_type = "url" then
        match env.urlHead cfg.build.source_path with
        | .status code =>
          if code ≥ 400 then
            some ("Failed to validate URL: " ++ cfg.build.source_path ++ " - " ++
              "URL returned error " ++ toString code ++ ": " ++ cfg.build.source_path)
          else none
        | .urlError msg =>
          some ("URL is not reachable: " ++ cfg.build.source_path ++ " - " ++ msg)
        | .exc msg =>
          some ("Failed to validate URL: " ++ cfg.build.source_path ++ " - " ++ msg)
      else none
    match srcCheck with
    | some e => some e
    | none =>
      if pyStrip cfg.metadata.name = "" then some "Application name is required"
      else if invalidNameChars.toList.any (fun c => cfg.metadata.name.toList.contains c) then
        some ("Application name contains invalid characters: " ++ invalidNameChars)
      else
        match diskCheckBuilder (env.diskFree cfg.build.output_dir) with
        | some e => some e
        | none => none

/-- `BuildEngine.prepare_build` (`builder.py` lines 22-50), restricted to
its configuration effect and return value: when `icon_path` is empty or
does not exist, the engine generates `app_icon.ico` under the build
directory and MUTATES `self.config.build.icon_path` to point at it; the
function returns the written main-script path.  Directory creation and
asset copying have no further claim-relevant observations. -/
def prepareBuild (env : BuildEnv) (cfg : AppConfig) : AppConfig × String :=
  let buildDir := buildDirOf cfg
  let cfg' :=
    if cfg.build.icon_path = "" ∨ ¬ env.fsExists cfg.build.icon_path then
      { cfg with build := { cfg.build with icon_path := joinPath buildDir "app_icon.ico" } }
    else cfg
  (cfg', joinPath buildDir "main.py")

/-- `BuildEngine._get_exe_path` (`builder.py` lines 402-411). -/
def getExePath (env : BuildEnv) (cfg : AppConfig) : String :=
  let exeName := if env.platform = "win32" then cfg.metadata.name ++ ".exe" else cfg.metadata.name
  if cfg.build.onefile then joinPath (distDirOf cfg) exeName
  else joinPath (joinPath (distDirOf cfg) cfg.metadata.name) exeName

/-- The fixed baseline `hidden_imports` list of
`BuildEngine._build_pyinstaller_command` (`builder.py` lines 341-345). -/
def hiddenImportsBase : List String :=
  ["flask", "webview", "threading", "json", "os", "sys", "time",
   "importlib.metadata", "importlib.util", "pathlib", "pkgutil",
   "platform", "socket", "urllib.parse", "urllib.request", "urllib.error"]

/-- `BuildEngine._build_pyinstaller_command` (`builder.py` lines
311-400): the backend command token list, in source order. -/
def buildPyInstallerCommand (env : BuildEnv) (cfg : AppConfig)
    (mainScriptPath : String) (extraHiddenImports : Option (List String)) : List String :=
  let buildDir := buildDirOf cfg
  let base :=
    [env.pyExecutable, "-m", "PyInstaller", "--noconfirm", "--clean",
     "--name=" ++ cfg.metadata.name,
     "--distpath=" ++ distDirOf cfg,
     "--workpath=" ++ joinPath buildDir "work",
     "--specpath=" ++ buildDir]
  let onefileTok := if cfg.build.onefile then ["--onefile"] else []
  let windowedTok := if ¬ cfg.build.console then ["--windowed"] else []
  let iconTok :=
    if cfg.build.icon_path ≠ "" ∧ env.fsExists cfg.build.icon_path then
      ["--icon=" ++ cfg.build.icon_path]
    else []
  let htmlAssets := env.absPath (joinPath buildDir "html_assets")
  let dataTok :=
    if cfg.build.source_type = "folder" ∧ env.fsExists htmlAssets then
      let separator := if env.platform = "win32" then ";" else ":"
      ["--add-data=" ++ htmlAssets ++ separator ++ "html_assets"]
    else []
  let hiddenImports :=
    match extraHiddenImports with
    | some extras => hiddenImportsBase ++ extras
    | none => hiddenImportsBase
  let hiddenToks := hiddenImports.map (fun imp => "--hidden-import=" ++ imp)
  let versionTok :=
    if env.platform = "win32" ∧ cfg.metadata.company ≠ "" then
      ["--version-file=" ++ joinPath buildDir "version_info.txt"]
    else []
  let upxTok := if cfg.build.upx_compress then ["--upx-dir=upx"] else []
  let debugTok := if cfg.build.debug then ["--debug=all"] else ["--strip"]
  base ++ onefileTok ++ windowedTok ++ iconTok ++ dataTok ++ hiddenToks ++
    versionTok ++ upxTok ++ debugTok ++ [mainScriptPath]

/-- The timeout (seconds) passed to `subprocess.run` in
`BuildEngine.build` (`builder.py` line 224). -/
def buildTimeoutSeconds : Nat := 1200

/-- The dict returned by `BuildEngine.build` (and, after exception
wrapping, by `BulletProofExporter._execute_export`), restricted to the
keys the orchestrator reads. -/
structure BuildResultD where
  success : Bool
  error : String := ""
  exe_path : String := ""
  deriving DecidableEq, Repr

/-- `BuildEngine.build` (`builder.py` lines 207-270).  The pair's second
component is the configuration object's value after the call (the engine
mutates `self.config` in `prepare_build`); `Except.error` models an
exception escaping `build`. -/
def buildE (env : BuildEnv) (cfg : AppConfig) (_extra : Option (List String)) :
    Except String BuildResultD × AppConfig :=
  match validateBuildConfig env cfg with
  | some e => (.error e, cfg)
  | none =>
    let (cfg', mainScript) := prepareBuild env cfg
    let _cmd := buildPyInstallerCommand env cfg' mainScript _extra
    match env.proc with
    | .timeoutExpired =>
      (.ok { success := false, error := "Build timed out after 20 minutes" }, cfg')
    | .exited rc out errS =>
      if rc ≠ 0 then
        let msg := if errS ≠ "" then errS else if out ≠ "" then out else "Unknown build error"
        (.error ("Build failed: " ++ msg), cfg')
      else
        let exePath := getExePath env cfg'
        if ¬ env.existsAfter exePath then
          (.error "Executable was not created successfully", cfg')
        else
          (.ok { success := true, exe_path := exePath }, cfg')

/-- `BulletProofExporter._execute_export` (`debugger.py` lines 288-295):
run the engine and convert any exception into a
`{"success": False, "error": str(e)}` dict, so nothing is thrown to the
orchestrator loop. -/
def executeExportE (env : BuildEnv) (cfg : AppConfig) (extra : Option (List String)) :
    BuildResultD × AppConfig :=
  match buildE env cfg extra with
  | (.ok r, cfg') => (r, cfg')
  | (.error e, cfg') => ({ success := false, error := e }, cfg')

/-- One `setattr(self.config.build, key, value)` target of a strategy's
`modifications` dict: the keys actually used by
`_get_export_strategies`. -/
inductive BuildMod where
  | onefile (b : Bool)
  | upx_compress (b : Bool)
  | debug (b : Bool)
  | console (b : Bool)
  | strip_debug (b : Bool)
  deriving DecidableEq, Repr

/-- Apply one modification to the `build` sub-config. -/
def applyMod (c : BuildConfig) : BuildMod → BuildConfig
  | .onefile b => { c with onefile := b }
  | .upx_compress b => { c with upx_compress := b }
  | .debug b => { c with debug := b }
  | .console b => { c with console := b }
  | .strip_debug b => { c with strip_debug := b }

/-- A strategy dict of `debugger.py`: name, modifications, and the
optional `extra_hidden_imports` key (`none` models an absent key, for
which Python's `strategy.get(...)` yields `None`). -/
structure Strategy where
  name : String
  modifications : List BuildMod := []
  extra_hidden_imports : Option (List String) := none
  deriving DecidableEq, Repr

/-- The `for key, value in strategy.get("modifications", {}).items()`
loop of `export_with_auto_debug` (lines 145-146). -/
def applyStrategyMods (cfg : AppConfig) (s : Strategy) : AppConfig :=
  { cfg with build := s.modifications.foldl applyMod cfg.build }

/-- `BulletProofExporter._get_export_strategies` (`debugger.py` lines
278-286): the fixed baseline strategy list. -/
def getExportStrategies : List Strategy :=
  [{ name := "Standard Export" },
   { name := "Directory Mode", modifications := [.onefile false] },
   { name := "No UPX Compression", modifications := [.upx_compress false] },
   { name := "Debug Mode", modifications := [.debug true, .console true] },
   { name := "Minimal Configuration",
     modifications := [.onefile false, .upx_compress false, .strip_debug false, .debug true] }]

/-- The strategy injected by the diagnosis branch of
`export_with_auto_debug` (lines 170-174). -/
def addHintStrategy (m : String) : Strategy :=
  { name := "Add Hidden Import: " ++ m, modifications := [],
    extra_hidden_imports := some [m] }

/-- The failure dict of `_generate_failure_report` (`debugger.py` lines
297-315), restricted to the claim-relevant keys: `success` is false,
`error` is the fixed message, and `strategies_tried` is
`len(self.export_history)`. -/
structure FailureReport where
  strategies_tried : Nat
  deriving DecidableEq, Repr

/-- The value `export_with_auto_debug` hands back to its caller. -/
inductive ExportResult where
  /-- A successful attempt's result dict with `result["strategy"]` set. -/
  | success (r : BuildResultD) (strategy : String)
  /-- The failing validation check's dict, returned before any attempt. -/
  | validationFailed (err : String)
  /-- The `_generate_failure_report` dict after queue exhaustion. -/
  | failureReport (rep : FailureReport)
  /-- Artificial out-of-fuel marker of the embedding (the Python `while`
  loop has no such case; all theorems supply sufficient fuel). -/
  | fuelOut
  deriving DecidableEq, Repr

/-- State of the `while i < len(strategies)` loop of
`export_with_auto_debug`.  Python object aliasing is made explicit:
`callerCfg` is the value of the caller's `AppConfig` object, `selfCfg`
the value of the object `self.config` currently points to, and `aliased`
records whether they are the same object (true until the first
`self.config = original_config` rebinding).  The current strategy list
is `tried ++ remaining` with the cursor at `remaining`'s head; `history`
is `self.export_history` (names of successful strategies); `attempts`
counts `_execute_export` invocations. -/
structure LoopState where
  callerCfg : AppConfig
  selfCfg : AppConfig
  aliased : Bool
  tried : List Strategy
  remaining : List Strategy
  history : List String
  attempts : Nat

/-- The execution oracle: attempt index, effective configuration and
`extra_hidden_imports` in, the `_execute_export` result dict and the
configuration value after the call (the engine may mutate the object)
out.  `executeExportE` composed with a `BuildEnv` is one instance. -/
def Exec : Type := Nat → AppConfig → Option (List String) → BuildResultD × AppConfig

/-- Result of one loop iteration. -/
inductive StepRes where
  | done (res : ExportResult) (final : LoopState)
  | next (st : LoopState)

/-- Value of the caller's object after a write through `self.config`:
when the two are aliased the caller sees the new value, otherwise it
keeps its own. -/
def callerView (aliased : Bool) (caller cfgNow : AppConfig) : AppConfig :=
  if aliased then cfgNow else caller

/-- One iteration of the `while` loop of `export_with_auto_debug`
(`debugger.py` lines 136-186), plus the `_generate_failure_report` exit
when the queue is exhausted.  Mirrors the source order: deep-copy backup,
apply modifications, execute, then on success return the result with the
strategy name recorded, and on failure restore `self.config` (a
rebinding, which ends aliasing with the caller's object), run the
diagnosis and possibly insert the remedial strategy at index `i + 1`. -/
def loopStep (ex : Exec) (st : LoopState) : StepRes :=
  match st.remaining with
  | [] => .done (.failureReport { strategies_tried := st.history.length }) st
  | s :: rest =>
    let original := st.selfCfg
    let cfg1 := applyStrategyMods st.selfCfg s
    let caller1 := callerView st.aliased st.callerCfg cfg1
    let (r, cfg2) := ex st.attempts cfg1 s.extra_hidden_imports
    let caller2 := callerView st.aliased caller1 cfg2
    if r.success then
      .done (.success r s.name)
        { st with selfCfg := cfg2, callerCfg := caller2,
                  history := st.history ++ [s.name], attempts := st.attempts + 1 }
    else
      let stRestored : LoopState :=
        { st with selfCfg := original, callerCfg := caller2, aliased := false,
                  attempts := st.attempts + 1 }
      match diagnoseMissingModule r.error with
      | some m =>
        if (st.tried ++ s :: rest).any
            (fun s2 => s2.extra_hidden_imports == some [m]) then
          .next { stRestored with tried := st.tried ++ [s], remaining := rest }
        else
          .next { stRestored with tried := st.tried ++ [s],
                                  remaining := addHintStrategy m :: rest }
      | none => .next { stRestored with tried := st.tried ++ [s], remaining := rest }

/-- The whole `while` loop, with fuel bounding the number of iterations
(the Python loop's termination relies on the diagnosis de-duplication;
every theorem below provides enough fuel). -/
def exportLoop (ex : Exec) : Nat → LoopState → ExportResult × LoopState
  | 0, st => (.fuelOut, st)
  | fuel + 1, st =>
    match loopStep ex st with
    | .done r fin => (r, fin)
    | .next st' => exportLoop ex fuel st'

/-- The loop state after `n` continuing iterations (`none` once the loop
has returned). -/
def loopIter (ex : Exec) : Nat → LoopState → Option LoopState
  | 0, st => some st
  | n + 1, st =>
    match loopStep ex st with
    | .done _ _ => none
    | .next st' => loopIter ex n st'

/-- Loop state at entry of `export_with_auto_debug`: the exporter's
`self.config` aliases the caller's object, the queue is the baseline
strategy list, and no attempt has run. -/
def initState (cfg0 : AppConfig) : LoopState :=
  { callerCfg := cfg0, selfCfg := cfg0, aliased := true, tried := [],
    remaining := getExportStrategies, history := [], attempts := 0 }

/-- `BulletProofExporter.export_with_auto_debug` (`debugger.py` lines
124-186): pre-export validation gates entry into the strategy loop. -/
def exportWithAutoDebug (denv : DbgEnv) (ex : Exec) (fuel : Nat) (cfg0 : AppConfig) :
    ExportResult × LoopState :=
  match (preExportValidation denv cfg0).1 with
  | .failed e => (.validationFailed e, initState cfg0)
  | .ok => exportLoop ex fuel (initState cfg0)

/-- The execution oracle induced by the real engine under a fixed
per-attempt environment. -/
def exEngine (benv : BuildEnv) : Exec := fun _i cfg extra => executeExportE benv cfg extra

/-- A configuration that passes every validation gate under `denvOk`
(used by several concrete evaluations below). -/
def cfgValid : AppConfig := { build := { source_path := "app" } }

/-- A benign validation environment: Python 3.11, 2 GB memory, all
dependencies found, 4 GB free disk, write probe fine, source folder
`app` present. -/
def denvOk : DbgEnv :=
  { availMemBytes := some 2147483648, diskFree := fun _ => some 4294967296,
    fsExists := fun s => s == "app" }

/-- C10: the disk-space validation check passes whenever the free-space
probe itself fails.  First conjunct: in `_check_disk_space` a `none`
probe result (the `shutil.disk_usage` call raising) yields a passing
check.  Second conjunct: the disk-space block of
`BuildEngine._validate_build_config` never raises at all — its bare
`except: pass` swallows both a failing probe and the explicit low-space
exception. -/
theorem C10_disk_probe_suppressed :
    (∀ (denv : DbgEnv) (cfg : AppConfig),
      denv.diskFree cfg.build.output_dir = none →
      (checkDiskSpace denv cfg).1 = .ok) ∧
    (∀ free?, diskCheckBuilder free? = none) := by
  constructor
  · intro denv cfg h
    simp [checkDiskSpace, h]
  · intro free?
    cases h : diskTryBodyBuilder free? <;> simp [diskCheckBuilder, h]

/-- Witness for C10 at a concrete input: the default environment's disk
probe fails on `dist`, and the check passes. -/
theorem C10_disk_probe_suppressed_witness :
    ({} : DbgEnv).diskFree ({} : AppConfig).build.output_dir = none ∧
    (checkDiskSpace {} {}).1 = .ok ∧ diskCheckBuilder none = none :=
  ⟨rfl, C10_disk_probe_suppressed.1 {} {} rfl, C10_disk_probe_suppressed.2 none⟩

/-- C5: backend command construction is deterministic.  The token list
produced by `_build_pyinstaller_command` is a function of the
configuration, the extra hidden imports, and exactly the named
environment observations (platform, interpreter path, the icon-path and
html-assets existence probes): any two calls whose environments agree on
those observations produce identical token lists, whatever else the
environments disagree on — there is no nondeterministic token source. -/
theorem C5_command_deterministic :
    ∀ (env1 env2 : BuildEnv) (cfg : AppConfig) (ms : String)
      (extra : Option (List String)),
    env1.platform = env2.platform →
    env1.pyExecutable = env2.pyExecutable →
    env1.fsExists cfg.build.icon_path = env2.fsExists cfg.build.icon_path →
    env1.absPath (joinPath (buildDirOf cfg) "html_assets") =
      env2.absPath (joinPath (buildDirOf cfg) "html_assets") →
    env1.fsExists (env1.absPath (joinPath (buildDirOf cfg) "html_assets")) =
      env2.fsExists (env2.absPath (joinPath (buildDirOf cfg) "html_assets")) →
    buildPyInstallerCommand env1 cfg ms extra = buildPyInstallerCommand env2 cfg ms extra := by
  intro env1 env2 cfg ms extra hp hpy hicon habs hass
  nth_rewrite 1 [habs] at hass
  simp only [buildPyInstallerCommand, hp, hpy, hicon, habs, hass]

/-- A second environment for the C5 witness that disagrees with
`{}` everywhere except at the observations the command reads. -/
def benvOther : BuildEnv :=
  { fsExists := fun s => s == "elsewhere", diskFree := fun _ => some 7,
    existsAfter := fun _ => true, proc := .exited 3 "o" "e" }

/-- Witness for C5 at concrete inputs: two environments that differ in
their disk, process and artifact observations still produce the same
command tokens. -/
theorem C5_command_deterministic_witness :
    buildPyInstallerCommand {} cfgValid "m.py" (some ["requests"]) =
      buildPyInstallerCommand benvOther cfgValid "m.py" (some ["requests"]) :=
  C5_command_deterministic {} benvOther cfgValid "m.py" (some ["requests"])
    rfl rfl rfl rfl rfl

/-- C6: an attempt is classified successful only if the expected artifact
exists.  First conjunct: whenever `BuildEngine.build` returns normally
with `success = true`, the reported `exe_path` is `_get_exe_path` of the
prepared configuration and the post-build existence probe for it is
true.  Second conjunct: a zero backend exit code with the artifact
absent yields the distinct `Executable was not created successfully`
error, never a success. -/
theorem C6_success_implies_artifact :
    (∀ (env : BuildEnv) (cfg : AppConfig) (extra : Option (List String)) (r : BuildResultD),
      (buildE env cfg extra).1 = .ok r → r.success = true →
      r.exe_path = getExePath env (prepareBuild env cfg).1 ∧
      env.existsAfter r.exe_path = true) ∧
    (∀ (env : BuildEnv) (cfg : AppConfig) (extra : Option (List String)) (out errS : String),
      validateBuildConfig env cfg = none →
      env.proc = .exited 0 out errS →
      env.existsAfter (getExePath env (prepareBuild env cfg).1) = false →
      (buildE env cfg extra).1 = .error "Executable was not created successfully") := by
  constructor
  · intro env cfg extra r hok hsucc
    unfold buildE at hok
    cases hval : validateBuildConfig env cfg with
    | some e => rw [hval] at hok; exact absurd hok (by simp)
    | none =>
      rw [hval] at hok
      cases hproc : env.proc with
      | timeoutExpired =>
        rw [hproc] at hok
        simp only at hok
        cases hok
        simp at hsucc
      | exited rc outS errS =>
        rw [hproc] at hok
        by_cases hrc : rc ≠ 0
        · simp only [if_pos hrc] at hok
          exact absurd hok (by simp)
        · simp only [if_neg hrc] at hok
          by_cases hex : env.existsAfter (getExePath env (prepareBuild env cfg).1) = true
          · rw [if_neg (by simp [hex])] at hok
            cases hok
            exact ⟨rfl, hex⟩
          · rw [if_pos (by simpa using hex)] at hok
            exact absurd hok (by simp)
  · intro env cfg extra out errS hval hproc hex
    unfold buildE
    rw [hval, hproc]
    simp [hex]

/-- Environment for the C6 witness: backend exits 0 but the artifact is
absent. -/
def benvC6 : BuildEnv := { fsExists := fun s => s == "app", proc := .exited 0 "" "" }

/-- Witness for C6 at a concrete input: exit code 0 with no artifact on
disk makes `build` raise the distinct not-created error. -/
theorem C6_success_implies_artifact_witness :
    validateBuildConfig benvC6 cfgValid = none ∧
    benvC6.proc = .exited 0 "" "" ∧
    (buildE benvC6 cfgValid none).1 = .error "Executable was not created successfully" :=
  ⟨by decide, rfl,
    C6_success_implies_artifact.2 benvC6 cfgValid none "" "" (by decide) rfl (by decide)⟩

/-- C8: a timed-out attempt is recoverable, never thrown.  Conjuncts:
the subprocess timeout bound is 1200 s = 20 minutes; a `TimeoutExpired`
backend makes `build` RETURN a failure dict (an `Except.ok` value, not
an exception) with the timeout message; `_execute_export` converts every
exception escaping the engine into a failure dict, so nothing propagates
to the caller; and the orchestrator loop reacts to any failed attempt by
continuing with the next queued strategy (one more attempt recorded, the
queue advanced, possibly with a diagnosis-injected strategy in front). -/
theorem C8_timeout_recoverable :
    buildTimeoutSeconds = 20 * 60 ∧
    (∀ (env : BuildEnv) (cfg : AppConfig) (extra : Option (List String)),
      validateBuildConfig env cfg = none → env.proc = .timeoutExpired →
      (buildE env cfg extra).1 =
        .ok { success := false, error := "Build timed out after 20 minutes" }) ∧
    (∀ (env : BuildEnv) (cfg : AppConfig) (extra : Option (List String)) (e : String)
       (cfg' : AppConfig),
      buildE env cfg extra = (.error e, cfg') →
      executeExportE env cfg extra = ({ success := false, error := e }, cfg')) ∧
    (∀ (ex : Exec) (st : LoopState) (s : Strategy) (rest : List Strategy)
       (r : BuildResultD) (cfg2 : AppConfig),
      st.remaining = s :: rest →
      ex st.attempts (applyStrategyMods st.selfCfg s) s.extra_hidden_imports = (r, cfg2) →
      r.success = false →
      ∃ st', loopStep ex st = .next st' ∧ st'.attempts = st.attempts + 1 ∧
        (st'.remaining = rest ∨ ∃ m, st'.remaining = addHintStrategy m :: rest)) := by
  refine ⟨rfl, ?_, ?_, ?_⟩
  · intro env cfg extra hval hproc
    unfold buildE
    rw [hval, hproc]
  · intro env cfg extra e cfg' hb
    unfold executeExportE
    rw [hb]
  · intro ex st s rest r cfg2 hrem hex hfail
    unfold loopStep
    rw [hrem]
    cases hd : diagnoseMissingModule r.error with
    | none =>
      simp only [hex, hfail, hd, Bool.false_eq_true, if_false]
      exact ⟨_, rfl, rfl, Or.inl rfl⟩
    | some m =>
      simp only [hex, hfail, hd, Bool.false_eq_true, if_false]
      by_cases hany : (st.tried ++ s :: rest).any
          (fun s2 => s2.extra_hidden_imports == some [m]) = true
      · rw [if_pos hany]
        exact ⟨_, rfl, rfl, Or.inl rfl⟩
      · rw [if_neg hany]
        exact ⟨_, rfl, rfl, Or.inr ⟨m, rfl⟩⟩

/-- Environment for the C8 witness: the backend times out. -/
def benvC8 : BuildEnv := { fsExists := fun s => s == "app", proc := .timeoutExpired }

/-- Witness for C8 at concrete inputs: a timing-out backend produces a
returned failure dict, `_execute_export` passes it through without an
exception, and the loop advances past the failed first strategy. -/
theorem C8_timeout_recoverable_witness :
    (buildE benvC8 cfgValid none).1 =
      .ok { success := false, error := "Build timed out after 20 minutes" } ∧
    (∃ st', loopStep (exEngine benvC8) (initState cfgValid) = .next st' ∧
      st'.attempts = 1 ∧
      (st'.remaining = (initState cfgValid).remaining.tail ∨
        ∃ m, st'.remaining = addHintStrategy m :: (initState cfgValid).remaining.tail)) :=
  ⟨C8_timeout_recoverable.2.1 benvC8 cfgValid none (by decide) rfl,
    C8_timeout_recoverable.2.2.2 (exEngine benvC8) (initState cfgValid)
      { name := "Standard Export" } (getExportStrategies.tail) _ _ rfl rfl (by decide)⟩

/-- The `for check in validation_checks` loop either sees every check
pass, or returns the error of the FIRST failing check, all earlier
checks passing. -/
theorem runChecks_first_failure (cs : List Check) (env : DbgEnv) (cfg : AppConfig) :
    ((runChecks cs env cfg).1 = .ok ∧ ∀ c ∈ cs, (c env cfg).1 = .ok) ∨
    (∃ pre c post e, cs = pre ++ c :: post ∧
      (∀ c' ∈ pre, (c' env cfg).1 = .ok) ∧
      (c env cfg).1 = .failed e ∧ (runChecks cs env cfg).1 = .failed e) := by
  induction cs with
  | nil => exact Or.inl ⟨rfl, by simp⟩
  | cons c cs ih =>
    rcases hc : c env cfg with ⟨r, eff⟩
    cases r with
    | ok =>
      rcases ih with ⟨hok, hall⟩ | ⟨pre, c', post, e, hsplit, hpre, hfailc, hres⟩
      · left
        constructor
        · simp only [runChecks, hc, hok]
        · intro c'' hmem
          rcases List.mem_cons.mp hmem with h | h
          · rw [h]; rw [hc]
          · exact hall c'' h
      · right
        refine ⟨c :: pre, c', post, e, by rw [hsplit]; rfl, ?_, hfailc, ?_⟩
        · intro c'' hmem
          rcases List.mem_cons.mp hmem with h | h
          · rw [h]; rw [hc]
          · exact hpre c'' h
        · simp only [runChecks, hc, hres]
    | failed e =>
      right
      refine ⟨[], c, cs, e, rfl, by simp, by rw [hc], ?_⟩
      simp only [runChecks, hc]

/-- C4 (amended): the validation pipeline short-circuits.  For every
environment and configuration, `_pre_export_validation` either passes
with every check passing, or returns exactly the error of the first
failing check in the fixed order — a configuration with several
simultaneous problems yields only the first one's error, and the result
is a single error, not a list. -/
theorem C4_validation_first_failure :
    ∀ (env : DbgEnv) (cfg : AppConfig),
    ((preExportValidation env cfg).1 = .ok ∧
      ∀ c ∈ validationChecks, (c env cfg).1 = .ok) ∨
    (∃ pre c post e, validationChecks = pre ++ c :: post ∧
      (∀ c' ∈ pre, (c' env cfg).1 = .ok) ∧
      (c env cfg).1 = .failed e ∧ (preExportValidation env cfg).1 = .failed e) :=
  fun env cfg => runChecks_first_failure validationChecks env cfg

/-- Counterexample to C4 as stated: a configuration with BOTH a missing
source path and an illegal application name.  The pipeline returns only
the source-path error; the name check also fails but its error is absent
from the result — the caller does not receive one error per failing
check. -/
def cfgC4 : AppConfig :=
  { build := { source_path := "" }, metadata := { name := "a<b" } }

/-- Counterexample for C4: with two simultaneously failing checks the
pipeline's result is exactly the first error, and the configuration
check's distinct error is provably also failing yet unreported. -/
theorem C4_counterexample :
    (preExportValidation denvOk cfgC4).1 = .failed "Source path not specified" ∧
    (checkConfiguration denvOk cfgC4).1 =
      .failed ("Application name contains invalid characters: " ++ invalidNameChars) ∧
    (.failed "Source path not specified" : CheckResult) ≠
      .failed ("Application name contains invalid characters: " ++ invalidNameChars) := by
  refine ⟨by decide, by decide, by decide⟩

/-- Any filesystem effect of the check loop belongs to one of the
executed checks. -/
theorem runChecks_effect_mem (cs : List Check) (env : DbgEnv) (cfg : AppConfig)
    (e : FsEffect) (he : e ∈ (runChecks cs env cfg).2) :
    ∃ c ∈ cs, e ∈ (c env cfg).2 := by
  induction cs with
  | nil => simp [runChecks] at he
  | cons c cs ih =>
    rcases hc : c env cfg with ⟨r, eff⟩
    cases r with
    | ok =>
      simp only [runChecks, hc] at he
      rcases List.mem_append.mp he with h | h
      · exact ⟨c, List.mem_cons_self c cs, by rw [hc]; exact h⟩
      · rcases ih h with ⟨c', hc', he'⟩
        exact ⟨c', List.mem_cons_of_mem c hc', he'⟩
    | failed err =>
      simp only [runChecks, hc] at he
      exact ⟨c, List.mem_cons_self c cs, by rw [hc]; exact he⟩

/-- C9 (amended): validation is observation-only EXCEPT for the
write-permission probe.  Every filesystem effect of
`_pre_export_validation` is one of: creating the output directory,
writing the probe file `test_write.tmp` there, or removing that probe
file again; no other write or delete ever occurs.  (The claim as stated
— no directory creation and no file writes at all — is refuted by the
counterexample below.) -/
theorem C9_validation_effects_bounded :
    ∀ (env : DbgEnv) (cfg : AppConfig) (e : FsEffect),
    e ∈ (preExportValidation env cfg).2 →
    e = FsEffect.makeDirs cfg.build.output_dir ∨
    e = FsEffect.writeFile (joinPath cfg.build.output_dir "test_write.tmp") ∨
    e = FsEffect.removeFile (joinPath cfg.build.output_dir "test_write.tmp") := by
  intro env cfg e he
  rcases runChecks_effect_mem validationChecks env cfg e he with ⟨c, hc, hin⟩
  simp only [validationChecks, List.mem_cons, List.not_mem_nil, or_false] at hc
  rcases hc with h | h | h | h | h | h <;> subst h
  · unfold checkSystemRequirements at hin
    split at hin
    · simp at hin
    · split at hin
      · split at hin <;> simp at hin
      · simp at hin
  · unfold checkSourceValidity at hin
    split at hin
    · simp at hin
    · split at hin
      · split at hin <;> simp at hin
      · simp at hin
  · simp only [checkDependencies] at hin
    split at hin <;> simp at hin
  · unfold checkDiskSpace at hin
    split at hin
    · split at hin <;> simp at hin
    · simp at hin
  · unfold checkPermissions at hin
    split at hin <;> simp at hin <;> tauto
  · unfold checkConfiguration at hin
    split at hin
    · simp at hin
    · split at hin <;> simp at hin

/-- A valid configuration used for the C9 counterexample runs; every
validation gate passes under `denvOk`. -/
def cfgC9 : AppConfig := { build := { source_path := "app", output_dir := "out" } }

/-- Counterexample for C9 as stated: on a configuration that passes all
checks, the validation pipeline's filesystem trace is non-empty — it
creates the output directory and writes (then removes) a probe file,
contradicting "creates no directories and neither writes nor deletes any
file". -/
theorem C9_counterexample :
    (preExportValidation denvOk cfgC9).1 = .ok ∧
    (preExportValidation denvOk cfgC9).2 =
      [FsEffect.makeDirs "out", FsEffect.writeFile "out/test_write.tmp",
       FsEffect.removeFile "out/test_write.tmp"] ∧
    (preExportValidation denvOk cfgC9).2 ≠ [] := by
  refine ⟨by decide, by decide, by decide⟩

/-- Witness for the amended C9 theorem at a concrete input: the
directory-creation effect really occurs and is one of the three allowed
probe effects. -/
theorem C9_validation_effects_bounded_witness :
    FsEffect.makeDirs "out" ∈ (preExportValidation denvOk cfgC9).2 ∧
    (FsEffect.makeDirs "out" = FsEffect.makeDirs cfgC9.build.output_dir ∨
      FsEffect.makeDirs "out" = FsEffect.writeFile (joinPath cfgC9.build.output_dir "test_write.tmp") ∨
      FsEffect.makeDirs "out" = FsEffect.removeFile (joinPath cfgC9.build.output_dir "test_write.tmp")) :=
  ⟨by decide, C9_validation_effects_bounded denvOk cfgC9 (FsEffect.makeDirs "out") (by decide)⟩

/-- Number of strategies in `l` whose `extra_hidden_imports` is exactly
`some ms` (Python `s.get("extra_hidden_imports") == [m]`). -/
def extrasCount (l : List Strategy) (ms : List String) : Nat :=
  l.countP (fun s => s.extra_hidden_imports == some ms)

/-- No two strategies in the list carry the same present
`extra_hidden_imports` value.  (Baseline strategies have no such key at
all, i.e. `none`; they are not counted.) -/
def nodupExtras (l : List Strategy) : Prop :=
  ∀ ms : List String, extrasCount l ms ≤ 1

/-- If the de-duplication scan reports no strategy with hints `[m]`, the
count of such strategies is zero. -/
theorem extrasCount_eq_zero_of_any_false (l : List Strategy) (m : String)
    (hany : l.any (fun s2 => s2.extra_hidden_imports == some [m]) = false) :
    extrasCount l [m] = 0 := by
  rw [extrasCount, List.countP_eq_zero]
  intro a ha
  have := List.any_eq_false.mp hany a ha
  simpa using this

/-- Inserting the diagnosis strategy after the current index adds one to
the count for `[m]` and leaves every other count unchanged. -/
theorem countP_extras_insert (tried rest : List Strategy) (s : Strategy)
    (m : String) (ms : List String) :
    extrasCount ((tried ++ [s]) ++ (addHintStrategy m :: rest)) ms =
      extrasCount (tried ++ s :: rest) ms + (if [m] = ms then 1 else 0) := by
  have hl : (tried ++ [s]) ++ (addHintStrategy m :: rest) =
      tried ++ s :: addHintStrategy m :: rest := by simp
  rw [hl]
  simp only [extrasCount, List.countP_append, List.countP_cons]
  by_cases hms : [m] = ms
  · have hp : ((addHintStrategy m).extra_hidden_imports == some ms) = true := by
      simp [addHintStrategy, hms]
    simp only [hp, if_pos hms]
    try simp
    try omega
  · have hp : ((addHintStrategy m).extra_hidden_imports == some ms) = false := by
      simp only [addHintStrategy, beq_eq_false_iff_ne, ne_eq, Option.some.injEq]
      exact hms
    simp only [hp, if_neg hms]
    try simp
    try omega

/-- Shape of any continuing loop iteration: the head strategy moves to
`tried`, and the new queue head is either the old tail or the freshly
injected diagnosis strategy — injected only when no strategy anywhere in
the current list already carries hints `[m]`. -/
theorem loopStep_next_shape (ex : Exec) (st st' : LoopState)
    (hstep : loopStep ex st = .next st') :
    ∃ s rest, st.remaining = s :: rest ∧ st'.tried = st.tried ++ [s] ∧
      (st'.remaining = rest ∨
        ∃ m, (st.tried ++ s :: rest).any
            (fun s2 => s2.extra_hidden_imports == some [m]) = false ∧
          st'.remaining = addHintStrategy m :: rest) := by
  unfold loopStep at hstep
  split at hstep
  · cases hstep
  next s rest hrem =>
    simp only [] at hstep
    rcases hex : ex st.attempts (applyStrategyMods st.selfCfg s) s.extra_hidden_imports
      with ⟨r, cfg2⟩
    rw [hex] at hstep
    simp only [] at hstep
    split at hstep
    · cases hstep
    · split at hstep
      next m hd =>
        split at hstep
        next hany =>
          cases hstep
          exact ⟨s, rest, hrem, rfl, Or.inl rfl⟩
        next hany =>
          cases hstep
          exact ⟨s, rest, hrem, rfl, Or.inr ⟨m, by simpa using hany, rfl⟩⟩
      next hd =>
        cases hstep
        exact ⟨s, rest, hrem, rfl, Or.inl rfl⟩

/-- A continuing loop iteration preserves the no-duplicate-hints
invariant of the full strategy list. -/
theorem loopStep_next_nodup (ex : Exec) (st st' : LoopState)
    (hstep : loopStep ex st = .next st')
    (h : nodupExtras (st.tried ++ st.remaining)) :
    nodupExtras (st'.tried ++ st'.remaining) := by
  rcases loopStep_next_shape ex st st' hstep with ⟨s, rest, hrem, htried, hcase⟩
  rw [hrem] at h
  rcases hcase with hr | ⟨m, hany, hr⟩
  · rw [htried, hr]
    intro ms
    have h1 := h ms
    simp only [extrasCount, List.countP_append, List.countP_cons, List.countP_nil] at h1 ⊢
    omega
  · rw [htried, hr]
    intro ms
    rw [countP_extras_insert]
    have h1 := h ms
    by_cases hms : [m] = ms
    · rw [if_pos hms]
      have h0 := extrasCount_eq_zero_of_any_false (st.tried ++ s :: rest) m hany
      rw [hms] at h0
      omega
    · rw [if_neg hms]
      omega

/-- The baseline queue carries no `extra_hidden_imports` key anywhere, so
it satisfies the no-duplicate-hints invariant. -/
theorem initState_nodupExtras (cfg0 : AppConfig) :
    nodupExtras ((initState cfg0).tried ++ (initState cfg0).remaining) := by
  intro ms
  exact Nat.zero_le 1

/-- The no-duplicate-hints invariant holds after any number of loop
iterations. -/
theorem loopIter_nodup (ex : Exec) :
    ∀ (n : Nat) (st st' : LoopState), nodupExtras (st.tried ++ st.remaining) →
      loopIter ex n st = some st' → nodupExtras (st'.tried ++ st'.remaining) := by
  intro n
  induction n with
  | zero =>
    intro st st' h hit
    cases hit
    exact h
  | succ n ih =>
    intro st st' h hit
    unfold loopIter at hit
    split at hit
    · cases hit
    next st1 hstep =>
      exact ih st1 st' (loopStep_next_nodup ex st st1 hstep h) hit

/-- C1: diagnosis injection without duplication.  First conjunct: a
failed attempt whose error diagnoses missing module `m` inserts EXACTLY
one `Add Hidden Import: m` strategy immediately after the current index
(it becomes the next queue head) when no strategy anywhere in the list
already has hints `[m]`, and inserts nothing when one does — so running
the same failing attempt twice never inserts two copies.  Remaining
conjuncts: every continuing iteration preserves the property that no two
strategies carry the same present `extra_hidden_imports` value, the
property holds initially, and hence it holds at every state reachable in
a run — the queue never contains two strategies with identical
extra-hints content. -/
theorem C1_diagnosis_injection :
    (∀ (ex : Exec) (st : LoopState) (s : Strategy) (rest : List Strategy)
       (r : BuildResultD) (cfg2 : AppConfig) (m : String),
      st.remaining = s :: rest →
      ex st.attempts (applyStrategyMods st.selfCfg s) s.extra_hidden_imports = (r, cfg2) →
      r.success = false →
      diagnoseMissingModule r.error = some m →
      (((st.tried ++ s :: rest).any
          (fun s2 => s2.extra_hidden_imports == some [m]) = false →
        ∃ st', loopStep ex st = .next st' ∧ st'.tried = st.tried ++ [s] ∧
          st'.remaining = addHintStrategy m :: rest) ∧
       ((st.tried ++ s :: rest).any
          (fun s2 => s2.extra_hidden_imports == some [m]) = true →
        ∃ st', loopStep ex st = .next st' ∧ st'.tried = st.tried ++ [s] ∧
          st'.remaining = rest))) ∧
    (∀ (ex : Exec) (st st' : LoopState), loopStep ex st = .next st' →
      nodupExtras (st.tried ++ st.remaining) →
      nodupExtras (st'.tried ++ st'.remaining)) ∧
    (∀ cfg0 : AppConfig,
      nodupExtras ((initState cfg0).tried ++ (initState cfg0).remaining)) ∧
    (∀ (ex : Exec) (cfg0 : AppConfig) (n : Nat) (st' : LoopState),
      loopIter ex n (initState cfg0) = some st' →
      nodupExtras (st'.tried ++ st'.remaining)) := by
  refine ⟨?_, ?_, ?_, ?_⟩
  · intro ex st s rest r cfg2 m hrem hex hr hm
    constructor
    · intro hany
      unfold loopStep
      rw [hrem]
      simp only [hex, hr, hm, Bool.false_eq_true, if_false, hany]
      exact ⟨_, rfl, rfl, rfl⟩
    · intro hany
      unfold loopStep
      rw [hrem]
      simp only [hex, hr, hm, Bool.false_eq_true, if_false, hany, if_true]
      exact ⟨_, rfl, rfl, rfl⟩
  · exact loopStep_next_nodup
  · exact initState_nodupExtras
  · intro ex cfg0 n st' hiter
    exact loopIter_nodup ex n (initState cfg0) st' (initState_nodupExtras cfg0) hiter

/-- Execution oracle whose attempts always fail with a missing-module
error for `requests`. -/
def exMissingC1 : Exec := fun _ c _ =>
  ({ success := false,
     error := "ModuleNotFoundError: No module named " ++ quoted "requests" }, c)

/-- Witness for C1 at concrete inputs: the first failing attempt under
the baseline queue inserts `Add Hidden Import: requests` right after the
current strategy. -/
theorem C1_diagnosis_injection_witness :
    diagnoseMissingModule ("ModuleNotFoundError: No module named " ++ quoted "requests") =
      some "requests" ∧
    (∃ st', loopStep exMissingC1 (initState cfgValid) = .next st' ∧
      st'.tried = (initState cfgValid).tried ++ [{ name := "Standard Export" }] ∧
      st'.remaining = addHintStrategy "requests" :: (initState cfgValid).remaining.tail) :=
  ⟨by decide,
    (C1_diagnosis_injection.1 exMissingC1 (initState cfgValid)
      { name := "Standard Export" } ((initState cfgValid).remaining.tail) _ _ "requests"
      rfl rfl rfl (by decide)).1 (by decide)⟩

/-- A failing attempt never ends the loop: the step continues with the
next queued strategy (possibly behind a freshly injected one). -/
theorem loopStep_failure_advance (ex : Exec) (st : LoopState) (s : Strategy)
    (rest : List Strategy) (r : BuildResultD) (cfg2 : AppConfig)
    (hrem : st.remaining = s :: rest)
    (hex : ex st.attempts (applyStrategyMods st.selfCfg s) s.extra_hidden_imports = (r, cfg2))
    (hr : r.success = false) :
    ∃ st', loopStep ex st = .next st' ∧ st'.attempts = st.attempts + 1 ∧
      (st'.remaining = rest ∨ ∃ m, st'.remaining = addHintStrategy m :: rest) := by
  unfold loopStep
  rw [hrem]
  cases hd : diagnoseMissingModule r.error with
  | none =>
    simp only [hex, hr, hd, Bool.false_eq_true, if_false]
    exact ⟨_, rfl, rfl, Or.inl rfl⟩
  | some m =>
    simp only [hex, hr, hd, Bool.false_eq_true, if_false]
    by_cases hany : (st.tried ++ s :: rest).any
        (fun s2 => s2.extra_hidden_imports == some [m]) = true
    · rw [if_pos hany]
      exact ⟨_, rfl, rfl, Or.inl rfl⟩
    · rw [if_neg hany]
      exact ⟨_, rfl, rfl, Or.inr ⟨m, rfl⟩⟩

/-- A succeeding attempt ends the loop at once with the strategy name
recorded on the result. -/
theorem loopStep_success (ex : Exec) (st : LoopState) (s : Strategy)
    (rest : List Strategy) (r : BuildResultD) (cfg2 : AppConfig)
    (hrem : st.remaining = s :: rest)
    (hex : ex st.attempts (applyStrategyMods st.selfCfg s) s.extra_hidden_imports = (r, cfg2))
    (hr : r.success = true) :
    ∃ fin, loopStep ex st = .done (.success r s.name) fin ∧
      fin.attempts = st.attempts + 1 ∧ fin.remaining = st.remaining := by
  unfold loopStep
  rw [hrem]
  simp only [hex, hr, if_true]
  exact ⟨_, rfl, rfl, rfl⟩

/-- If the first `p` attempts fail and attempt `p` (0-based) succeeds,
the loop returns a success after exactly `p + 1` attempts. -/
theorem exportLoop_first_success (ex : Exec) :
    ∀ (p : Nat) (st : LoopState) (fuel : Nat),
      (∀ j, j < p → ∀ c x, ((ex (st.attempts + j) c x).1).success = false) →
      (∀ c x, ((ex (st.attempts + p) c x).1).success = true) →
      p < st.remaining.length → p < fuel →
      ∃ r nm fin, exportLoop ex fuel st = (.success r nm, fin) ∧
        fin.attempts = st.attempts + p + 1 := by
  intro p
  induction p with
  | zero =>
    intro st fuel hfail hsucc hlen hfuel
    cases hrem : st.remaining with
    | nil => rw [hrem] at hlen; simp at hlen
    | cons s rest =>
      rcases hex : ex st.attempts (applyStrategyMods st.selfCfg s) s.extra_hidden_imports
        with ⟨r, cfg2⟩
      have hr : r.success = true := by
        have h := hsucc (applyStrategyMods st.selfCfg s) s.extra_hidden_imports
        rw [Nat.add_zero, hex] at h
        exact h
      rcases loopStep_success ex st s rest r cfg2 hrem hex hr with ⟨fin, hstep, hatt, _⟩
      cases fuel with
      | zero => omega
      | succ fuel =>
        refine ⟨r, s.name, fin, ?_, by rw [hatt]⟩
        unfold exportLoop
        rw [hstep]
  | succ p ih =>
    intro st fuel hfail hsucc hlen hfuel
    cases hrem : st.remaining with
    | nil => rw [hrem] at hlen; simp at hlen
    | cons s rest =>
      rcases hex : ex st.attempts (applyStrategyMods st.selfCfg s) s.extra_hidden_imports
        with ⟨r, cfg2⟩
      have hr : r.success = false := by
        have h := hfail 0 (Nat.succ_pos p) (applyStrategyMods st.selfCfg s)
          s.extra_hidden_imports
        rw [Nat.add_zero, hex] at h
        exact h
      obtain ⟨st', hstep, hatt, hrem'⟩ :=
        loopStep_failure_advance ex st s rest r cfg2 hrem hex hr
      have hlen0 : p + 1 < (s :: rest).length := by rw [← hrem]; exact hlen
      have hlen' : p < st'.remaining.length := by
        rcases hrem' with h | ⟨m, h⟩ <;> rw [h] <;> simp at hlen0 ⊢ <;> omega
      cases fuel with
      | zero => omega
      | succ fuel =>
        have hfail' : ∀ j, j < p → ∀ c x,
            ((ex (st'.attempts + j) c x).1).success = false := by
          intro j hj c x
          rw [hatt]
          have he : st.attempts + 1 + j = st.attempts + (j + 1) := by omega
          rw [he]
          exact hfail (j + 1) (by omega) c x
        have hsucc' : ∀ c x, ((ex (st'.attempts + p) c x).1).success = true := by
          intro c x
          rw [hatt]
          have he : st.attempts + 1 + p = st.attempts + (p + 1) := by omega
          rw [he]
          exact hsucc c x
        obtain ⟨r', nm, fin, hloop, hattF⟩ := ih st' fuel hfail' hsucc' hlen' (by omega)
        refine ⟨r', nm, fin, ?_, by rw [hattF, hatt]; omega⟩
        unfold exportLoop
        rw [hstep]
        exact hloop

/-- C2: stop on success.  First conjunct: an attempt that succeeds makes
the loop return that attempt's result immediately, with the result's
strategy field set to the succeeding strategy's name, one attempt
recorded and the remaining queue untouched (no later queued strategy
runs).  Second conjunct: if attempts `0 .. p-1` fail and attempt `p`
succeeds, the whole loop performs exactly `p + 1` attempts — never
`p + 2` — and returns a success result. -/
theorem C2_stop_on_success :
    (∀ (ex : Exec) (st : LoopState) (s : Strategy) (rest : List Strategy)
       (r : BuildResultD) (cfg2 : AppConfig),
      st.remaining = s :: rest →
      ex st.attempts (applyStrategyMods st.selfCfg s) s.extra_hidden_imports = (r, cfg2) →
      r.success = true →
      ∃ fin, loopStep ex st = .done (.success r s.name) fin ∧
        fin.attempts = st.attempts + 1 ∧ fin.remaining = st.remaining) ∧
    (∀ (ex : Exec) (p : Nat) (st : LoopState) (fuel : Nat),
      (∀ j, j < p → ∀ c x, ((ex (st.attempts + j) c x).1).success = false) →
      (∀ c x, ((ex (st.attempts + p) c x).1).success = true) →
      p < st.remaining.length → p < fuel →
      ∃ r nm fin, exportLoop ex fuel st = (.success r nm, fin) ∧
        fin.attempts = st.attempts + p + 1) :=
  ⟨loopStep_success, fun ex p => exportLoop_first_success ex p⟩

/-- Execution oracle for the C2 witness: attempt 0 fails, attempt 1
succeeds. -/
def exC2 : Exec := fun i c _ =>
  (if i == 1 then { success := true } else { success := false, error := "bad" }, c)

/-- Witness for C2 at concrete inputs: with the first attempt failing
and the second succeeding, the run stops after exactly two attempts. -/
theorem C2_stop_on_success_witness :
    ((exC2 0 cfgValid none).1).success = false ∧
    ((exC2 1 cfgValid none).1).success = true ∧
    (∃ r nm fin, exportLoop exC2 5 (initState cfgValid) = (.success r nm, fin) ∧
      fin.attempts = (initState cfgValid).attempts + 1 + 1) :=
  ⟨rfl, rfl,
    C2_stop_on_success.2 exC2 1 (initState cfgValid) 5
      (fun j hj c x => by
        have hj0 : j = 0 := by omega
        subst hj0
        rfl)
      (fun c x => rfl) (by decide) (by decide)⟩

/-- When every attempt fails and the diagnosis never matches, the loop
consumes the queue one strategy per attempt and ends in the failure
report, whose `strategies_tried` field counts only the success history
(`export_history`), which such a run leaves untouched. -/
theorem exportLoop_exhaust (ex : Exec)
    (hfail : ∀ j c x, ((ex j c x).1).success = false)
    (hnd : ∀ j c x, diagnoseMissingModule ((ex j c x).1).error = none) :
    ∀ (rem : List Strategy) (st : LoopState) (fuel : Nat),
      st.remaining = rem → rem.length < fuel →
      ∃ fin, exportLoop ex fuel st =
        (.failureReport { strategies_tried := st.history.length }, fin) ∧
        fin.attempts = st.attempts + rem.length ∧ fin.history = st.history := by
  intro rem
  induction rem with
  | nil =>
    intro st fuel hrem hfuel
    cases fuel with
    | zero => omega
    | succ fuel =>
      have hstep : loopStep ex st =
          .done (.failureReport { strategies_tried := st.history.length }) st := by
        unfold loopStep
        rw [hrem]
      refine ⟨st, ?_, by simp, rfl⟩
      unfold exportLoop
      rw [hstep]
  | cons s rest ih =>
    intro st fuel hrem hfuel
    rcases hex : ex st.attempts (applyStrategyMods st.selfCfg s) s.extra_hidden_imports
      with ⟨r, cfg2⟩
    have hr : r.success = false := by
      have h := hfail st.attempts (applyStrategyMods st.selfCfg s) s.extra_hidden_imports
      rw [hex] at h
      exact h
    have hd : diagnoseMissingModule r.error = none := by
      have h := hnd st.attempts (applyStrategyMods st.selfCfg s) s.extra_hidden_imports
      rw [hex] at h
      exact h
    have hstep : ∃ st', loopStep ex st = .next st' ∧ st'.remaining = rest ∧
        st'.history = st.history ∧ st'.attempts = st.attempts + 1 := by
      unfold loopStep
      rw [hrem]
      simp only [hex, hr, hd, Bool.false_eq_true, if_false]
      exact ⟨_, rfl, rfl, rfl, rfl⟩
    obtain ⟨st', hstep, hrem', hhist, hatt⟩ := hstep
    cases fuel with
    | zero => simp at hfuel
    | succ fuel =>
      have hfuel' : rest.length < fuel := by
        simp only [List.length_cons] at hfuel
        omega
      obtain ⟨fin, hloop, hattF, hhistF⟩ := ih st' fuel hrem' hfuel'
      have heq : exportLoop ex (fuel + 1) st = exportLoop ex fuel st' := by
        show (match loopStep ex st with
              | .done r fin => (r, fin)
              | .next st1 => exportLoop ex fuel st1) = exportLoop ex fuel st'
        rw [hstep]
      refine ⟨fin, ?_, ?_, by rw [hhistF, hhist]⟩
      · rw [heq, hloop, hhist]
      · rw [hattF, hatt]
        simp only [List.length_cons]
        omega

/-- C3 (amended): exhaustion.  If validation passes, every attempt fails
and the diagnosis engine never matches, the engine performs exactly 5
attempts (one per baseline strategy, `N = 5`) and returns the failure
report with `success = false`; but that report's `strategies_tried`
field is 0, not `N` — `export_history` records only successful attempts,
so a fully failing run leaves it empty and the report carries no
per-attempt entries (they exist only in the debug log). -/
theorem C3_exhaustion_report :
    ∀ (denv : DbgEnv) (ex : Exec) (fuel : Nat) (cfg0 : AppConfig),
      (preExportValidation denv cfg0).1 = .ok →
      (∀ j c x, ((ex j c x).1).success = false) →
      (∀ j c x, diagnoseMissingModule ((ex j c x).1).error = none) →
      5 < fuel →
      ∃ fin, exportWithAutoDebug denv ex fuel cfg0 =
        (.failureReport { strategies_tried := 0 }, fin) ∧ fin.attempts = 5 := by
  intro denv ex fuel cfg0 hval hfail hnd hfuel
  obtain ⟨fin, hloop, hatt, _⟩ :=
    exportLoop_exhaust ex hfail hnd getExportStrategies (initState cfg0) fuel rfl
      (by simpa using hfuel)
  refine ⟨fin, ?_, ?_⟩
  · unfold exportWithAutoDebug
    rw [hval]
    exact hloop
  · simpa using hatt

/-- Execution oracle for C3: every attempt fails with an error the
diagnosis engine cannot match. -/
def exFailC3 : Exec := fun _ c _ => ({ success := false, error := "boom" }, c)

/-- Counterexample for C3 as stated: with `N = 5` baseline strategies
all failing and no diagnosis match, the run performs 5 attempts but the
returned failure report records `strategies_tried = 0`, not `N = 5` —
the report does not contain `N` entries for the attempts made. -/
theorem C3_counterexample :
    (exportWithAutoDebug denvOk exFailC3 6 cfgValid).1 =
      .failureReport { strategies_tried := 0 } ∧
    (exportWithAutoDebug denvOk exFailC3 6 cfgValid).2.attempts = 5 ∧
    (0 : Nat) ≠ 5 := by
  refine ⟨by decide, by decide, by decide⟩

/-- Witness for the amended C3 theorem at concrete inputs. -/
theorem C3_exhaustion_report_witness :
    (preExportValidation denvOk cfgValid).1 = .ok ∧
    (∃ fin, exportWithAutoDebug denvOk exFailC3 6 cfgValid =
      (.failureReport { strategies_tried := 0 }, fin) ∧ fin.attempts = 5) :=
  ⟨by decide,
    C3_exhaustion_report denvOk exFailC3 6 cfgValid (by decide)
      (fun j c x => rfl) (fun j c x => rfl) (by decide)⟩

/-- `cfg` with the `build.icon_path` field cleared. -/
def eraseIcon (c : AppConfig) : AppConfig :=
  { c with build := { c.build with icon_path := "" } }

/-- Two configurations agreeing on every metadata, window, security,
advanced and build field except possibly `build.icon_path`. -/
def agreesExceptIcon (a b : AppConfig) : Prop := eraseIcon a = eraseIcon b

/-- `prepare_build` touches only `build.icon_path` of the
configuration. -/
theorem prepareBuild_frame (env : BuildEnv) (cfg : AppConfig) :
    agreesExceptIcon (prepareBuild env cfg).1 cfg := by
  unfold prepareBuild agreesExceptIcon eraseIcon
  split
  · rfl
  · rfl

/-- `BuildEngine.build` mutates the configuration only through
`prepare_build`, hence only `build.icon_path`. -/
theorem buildE_frame (env : BuildEnv) (cfg : AppConfig) (x : Option (List String)) :
    agreesExceptIcon (buildE env cfg x).2 cfg := by
  have hpf := prepareBuild_frame env cfg
  unfold buildE
  split
  · rfl
  · split
    next cfg' ms heq =>
      rw [heq] at hpf
      split
      · exact hpf
      · split
        · exact hpf
        · simp only []
          split
          · exact hpf
          · exact hpf

/-- `_execute_export` mutates the configuration only through the engine,
hence only `build.icon_path`. -/
theorem executeExportE_frame (benv : BuildEnv) (cfg : AppConfig)
    (x : Option (List String)) :
    agreesExceptIcon (executeExportE benv cfg x).2 cfg := by
  have h := buildE_frame benv cfg x
  unfold executeExportE
  split
  next r cfg' heq =>
    rw [heq] at h
    exact h
  next e cfg' heq =>
    rw [heq] at h
    exact h

/-- On a succeeding attempt the loop returns with the caller object's
value being the attempt's written-through configuration when aliased,
its old value otherwise. -/
theorem loopStep_caller_success (ex : Exec) (st : LoopState) (s : Strategy)
    (rest : List Strategy) (r : BuildResultD) (cfg2 : AppConfig)
    (hrem : st.remaining = s :: rest)
    (hex : ex st.attempts (applyStrategyMods st.selfCfg s) s.extra_hidden_imports = (r, cfg2))
    (hr : r.success = true) :
    ∃ fin, loopStep ex st = .done (.success r s.name) fin ∧
      fin.callerCfg = callerView st.aliased
        (callerView st.aliased st.callerCfg (applyStrategyMods st.selfCfg s)) cfg2 := by
  unfold loopStep
  rw [hrem]
  simp only [hex, hr, if_true]
  exact ⟨_, rfl, rfl⟩

/-- On a failing attempt the loop continues, un-aliased, with the same
caller value bookkeeping. -/
theorem loopStep_caller_failure (ex : Exec) (st : LoopState) (s : Strategy)
    (rest : List Strategy) (r : BuildResultD) (cfg2 : AppConfig)
    (hrem : st.remaining = s :: rest)
    (hex : ex st.attempts (applyStrategyMods st.selfCfg s) s.extra_hidden_imports = (r, cfg2))
    (hr : r.success = false) :
    ∃ st', loopStep ex st = .next st' ∧ st'.aliased = false ∧
      st'.callerCfg = callerView st.aliased
        (callerView st.aliased st.callerCfg (applyStrategyMods st.selfCfg s)) cfg2 := by
  unfold loopStep
  rw [hrem]
  cases hd : diagnoseMissingModule r.error with
  | none =>
    simp only [hex, hr, hd, Bool.false_eq_true, if_false]
    exact ⟨_, rfl, rfl, rfl⟩
  | some m =>
    simp only [hex, hr, hd, Bool.false_eq_true, if_false]
    by_cases hany : (st.tried ++ s :: rest).any
        (fun s2 => s2.extra_hidden_imports == some [m]) = true
    · rw [if_pos hany]
      exact ⟨_, rfl, rfl, rfl⟩
    · rw [if_neg hany]
      exact ⟨_, rfl, rfl, rfl⟩

/-- Invariant run: provided each attempt's engine call changes only
`build.icon_path` of the configuration it is handed, the caller's
configuration stays `icon_path`-equivalent to its initial value through
the whole loop.  Aliasing with `self.config` ends at the first restore;
while it lasts, the head strategy is the modification-free baseline
head. -/
theorem exportLoop_caller_frame (ex : Exec)
    (hmut : ∀ j c x, agreesExceptIcon ((ex j c x).2) c) (cfg0 : AppConfig) :
    ∀ (fuel : Nat) (st : LoopState),
      agreesExceptIcon st.callerCfg cfg0 →
      (st.aliased = true → st.selfCfg = st.callerCfg ∧
        (∀ s rest, st.remaining = s :: rest → s.modifications = [])) →
      agreesExceptIcon ((exportLoop ex fuel st).2).callerCfg cfg0 := by
  intro fuel
  induction fuel with
  | zero =>
    intro st h1 _
    exact h1
  | succ fuel ih =>
    intro st h1 h2
    show agreesExceptIcon ((match loopStep ex st with
        | .done r fin => (r, fin)
        | .next st1 => exportLoop ex fuel st1).2).callerCfg cfg0
    cases hrem : st.remaining with
    | nil =>
      have hstep : loopStep ex st =
          .done (.failureReport { strategies_tried := st.history.length }) st := by
        unfold loopStep
        rw [hrem]
      rw [hstep]
      exact h1
    | cons s rest =>
      rcases hex : ex st.attempts (applyStrategyMods st.selfCfg s) s.extra_hidden_imports
        with ⟨r, cfg2⟩
      have hcaller : agreesExceptIcon
          (callerView st.aliased
            (callerView st.aliased st.callerCfg (applyStrategyMods st.selfCfg s)) cfg2)
          cfg0 := by
        cases hal : st.aliased with
        | false =>
          exact h1
        | true =>
          have hmods : s.modifications = [] := (h2 hal).2 s rest hrem
          have hself : st.selfCfg = st.callerCfg := (h2 hal).1
          have h3 : agreesExceptIcon cfg2 (applyStrategyMods st.selfCfg s) := by
            have h := hmut st.attempts (applyStrategyMods st.selfCfg s) s.extra_hidden_imports
            rw [hex] at h
            exact h
          have h4 : applyStrategyMods st.selfCfg s = st.selfCfg := by
            unfold applyStrategyMods
            rw [hmods]
            rfl
          show agreesExceptIcon cfg2 cfg0
          rw [h4, hself] at h3
          exact Eq.trans h3 h1
      by_cases hsucc : r.success = true
      · obtain ⟨fin, hstep, hcal⟩ :=
          loopStep_caller_success ex st s rest r cfg2 hrem hex hsucc
        rw [hstep]
        show agreesExceptIcon fin.callerCfg cfg0
        rw [hcal]
        exact hcaller
      · have hfail : r.success = false := by
          revert hsucc
          cases r.success <;> simp
        obtain ⟨st', hstep, hal', hcal⟩ :=
          loopStep_caller_failure ex st s rest r cfg2 hrem hex hfail
        rw [hstep]
        refine ih st' (by rw [hcal]; exact hcaller) ?_
        intro h
        rw [hal'] at h
        cases h

/-- C7 (amended): a run never corrupts the caller's configuration EXCEPT
possibly its `build.icon_path` field.  First conjunct: `_execute_export`
changes only `build.icon_path` of the configuration object it operates
on.  Second conjunct: for any engine behaviour with that frame property,
the caller's configuration after `export_with_auto_debug` agrees with
its initial value on every field except possibly `build.icon_path` —
that one field CAN change (see the counterexample), because the first
attempt runs on the caller's own object and the engine's icon generation
writes through before the backup copy is restored. -/
theorem C7_caller_config_frame :
    (∀ (benv : BuildEnv) (cfg : AppConfig) (x : Option (List String)),
      agreesExceptIcon ((executeExportE benv cfg x).2) cfg) ∧
    (∀ (denv : DbgEnv) (ex : Exec) (fuel : Nat) (cfg0 : AppConfig),
      (∀ j c x, agreesExceptIcon ((ex j c x).2) c) →
      agreesExceptIcon ((exportWithAutoDebug denv ex fuel cfg0).2).callerCfg cfg0) := by
  constructor
  · exact executeExportE_frame
  · intro denv ex fuel cfg0 hmut
    unfold exportWithAutoDebug
    cases hval : (preExportValidation denv cfg0).1 with
    | failed e => rfl
    | ok =>
      refine exportLoop_caller_frame ex hmut cfg0 fuel (initState cfg0) rfl ?_
      intro _
      refine ⟨rfl, ?_⟩
      intro s rest h
      have h' : ({ name := "Standard Export" } : Strategy) = s := by
        have hh := congrArg (fun l => l.head?) h
        simpa [initState, getExportStrategies] using hh
      rw [← h']

/-- Engine environment for the C7 counterexample: source folder exists,
the icon does not, every backend run exits 1. -/
def benvC7 : BuildEnv :=
  { fsExists := fun s => s == "app", proc := .exited 1 "" "boom",
    existsAfter := fun _ => false }

/-- Counterexample for C7 as stated: the caller's configuration starts
with an empty `build.icon_path`; every strategy fails (the run ends in
the failure report); yet at run end the caller's object carries the
generated icon path — the first attempt ran on the caller's own object
and `prepare_build`'s icon write went through before the backup was
restored, so a failing run DOES change the caller's configuration. -/
theorem C7_counterexample :
    cfgValid.build.icon_path = "" ∧
    (exportWithAutoDebug denvOk (exEngine benvC7) 6 cfgValid).1 =
      .failureReport { strategies_tried := 0 } ∧
    ((exportWithAutoDebug denvOk (exEngine benvC7) 6 cfgValid).2).callerCfg.build.icon_path =
      "dist/build/app_icon.ico" := by
  refine ⟨rfl, by decide, by decide⟩

/-- Witness for the amended C7 theorem at concrete inputs: the same run
leaves the caller's configuration unchanged in every field except
`build.icon_path`. -/
theorem C7_caller_config_frame_witness :
    agreesExceptIcon
      ((exportWithAutoDebug denvOk (exEngine benvC7) 6 cfgValid).2).callerCfg cfgValid :=
  C7_caller_config_frame.2 denvOk (exEngine benvC7) 6 cfgValid
    (fun _j c x => C7_caller_config_frame.1 benvC7 c x)

/-- Witness for the amended C4 theorem at a concrete input (the
double-fault configuration of the counterexample). -/
theorem C4_validation_first_failure_witness :
    ((preExportValidation denvOk cfgC4).1 = .ok ∧
      ∀ c ∈ validationChecks, (c denvOk cfgC4).1 = .ok) ∨
    (∃ pre c post e, validationChecks = pre ++ c :: post ∧
      (∀ c' ∈ pre, (c' denvOk cfgC4).1 = .ok) ∧
      (c denvOk cfgC4).1 = .failed e ∧
      (preExportValidation denvOk cfgC4).1 = .failed e) :=
  C4_validation_first_failure denvOk cfgC4
